import Mathlib

/-!
Verification of the role/service core of the rmcp-core crate
(src/crates/rmcp-core/src/service_traits.rs), shallowly embedded in Lean.

The data model (NumberOrString, RequestId, ProgressToken,
CancelledNotification) lives in the crate's model module, which is not part
of the sources here; those shapes are modelled from the specification where
marked. The service_traits.rs file itself is embedded faithfully:
the AtomicU32Provider identifier source, the Service handling contract,
and the blanket DynService adapter.
-/

namespace Rmcp

/-- Modelled from the spec: the identifier shape of the model module
("a value that is either a non-negative integer or an opaque string").
The integer payload is the u32 drawn from the atomic counter. -/
inductive NumberOrString where
  | number (n : Nat)
  | string (s : String)
deriving DecidableEq, Repr

/-- A request identifier is exactly a NumberOrString value. -/
abbrev RequestId := NumberOrString

/-- Modelled from the spec: ProgressToken, a wrapper around the same
integer-or-string identifier shape, in a distinct semantic namespace. -/
structure ProgressToken where
  tok : NumberOrString
deriving DecidableEq, Repr

/-- Whether an identifier is the Number variant. -/
def NumberOrString.isNumber : NumberOrString → Bool
  | .number _ => true
  | .string _ => false

/-- The modulus of the 32-bit unsigned counter cell. -/
def u32Mod : Nat := 2 ^ 32

/-- The AtomicU32Provider: a single atomic 32-bit counter cell.
The cell's content is represented as a natural number below 2^32. -/
structure AtomicU32Provider where
  id : Nat
deriving DecidableEq, Repr

/-- Default-construction of the provider: the counter starts at zero
(Rust derive(Default) zero-initialises the AtomicU32). -/
def AtomicU32Provider.new : AtomicU32Provider := ⟨0⟩

/-- fetch_add(1, SeqCst) on the counter cell: returns the previous value
and stores the wrapped successor. u32 arithmetic wraps modulo 2^32. -/
def AtomicU32Provider.fetch_add_one (p : AtomicU32Provider) :
    Nat × AtomicU32Provider :=
  (p.id % u32Mod, ⟨(p.id + 1) % u32Mod⟩)

/-- next_request_id: tag the freshly drawn counter value as a
NumberOrString::Number request identifier. -/
def next_request_id (p : AtomicU32Provider) : RequestId × AtomicU32Provider :=
  let r := p.fetch_add_one
  (NumberOrString.number r.1, r.2)

/-- next_progress_token: tag the freshly drawn counter value as a
ProgressToken wrapping NumberOrString::Number. -/
def next_progress_token (p : AtomicU32Provider) :
    ProgressToken × AtomicU32Provider :=
  let r := p.fetch_add_one
  (⟨NumberOrString.number r.1⟩, r.2)

/-- One kind of draw on the provider: a request-id draw or a
progress-token draw. An interleaving of concurrent callers is, by the
total order the SeqCst atomic imposes on fetch_add operations, a
sequence of such draws. -/
inductive IdOp where
  | req
  | prog
deriving DecidableEq, Repr

/-- The value returned by one draw. -/
inductive IdOut where
  | reqId (r : RequestId)
  | progTok (t : ProgressToken)
deriving DecidableEq, Repr

/-- Execute one draw against the provider state. -/
def stepOp : IdOp → AtomicU32Provider → IdOut × AtomicU32Provider
  | .req, p =>
    let r := next_request_id p
    (.reqId r.1, r.2)
  | .prog, p =>
    let r := next_progress_token p
    (.progTok r.1, r.2)

/-- Run a sequence of draws, collecting the returned identifiers in call
order together with the final provider state. -/
def runTrace : List IdOp → AtomicU32Provider → List IdOut × AtomicU32Provider
  | [], p => ([], p)
  | op :: ops, p =>
    let s := stepOp op p
    let rest := runTrace ops s.2
    (s.1 :: rest.1, rest.2)

/-- The identifier a draw of the given kind returns when the counter
yields the numeric value n. -/
def mkOut : IdOp → Nat → IdOut
  | .req, n => .reqId (NumberOrString.number n)
  | .prog, n => .progTok ⟨NumberOrString.number n⟩

/-- The numeric value carried by a draw's output (all provider outputs
carry the Number variant). -/
def outNum : IdOut → Nat
  | .reqId (.number n) => n
  | .reqId (.string _) => 0
  | .progTok ⟨.number n⟩ => n
  | .progTok ⟨.string _⟩ => 0

theorem runTrace_length (ops : List IdOp) (p : AtomicU32Provider) :
    (runTrace ops p).1.length = ops.length := by
  induction ops generalizing p with
  | nil => rfl
  | cons op ops ih => simp [runTrace, ih]

theorem stepOp_snd (op : IdOp) (p : AtomicU32Provider) :
    (stepOp op p).2 = ⟨(p.id + 1) % u32Mod⟩ := by
  cases op <;> rfl

theorem stepOp_fst (op : IdOp) (p : AtomicU32Provider) :
    (stepOp op p).1 = mkOut op (p.id % u32Mod) := by
  cases op <;> rfl

theorem runTrace_final_id (ops : List IdOp) (p : AtomicU32Provider)
    (hp : p.id < u32Mod) :
    (runTrace ops p).2.id = (p.id + ops.length) % u32Mod := by
  induction ops generalizing p with
  | nil => simp [runTrace, Nat.mod_eq_of_lt hp]
  | cons op ops ih =>
    have hm : 0 < u32Mod := by decide
    have h2 : ((p.id + 1) % u32Mod) < u32Mod := Nat.mod_lt _ hm
    have := ih ⟨(p.id + 1) % u32Mod⟩ h2
    simp only [runTrace, stepOp_snd] at *
    rw [this, Nat.mod_add_mod]
    simp [Nat.add_comm, Nat.add_assoc, Nat.add_left_comm]

theorem runTrace_get (ops : List IdOp) (p : AtomicU32Provider) (i : Nat)
    (hi : i < ops.length) (hp : p.id < u32Mod)
    (hl : i < (runTrace ops p).1.length) :
    (runTrace ops p).1.get ⟨i, hl⟩ =
      mkOut (ops.get ⟨i, hi⟩) ((p.id + i) % u32Mod) := by
  induction ops generalizing p i with
  | nil => exact absurd hi (by simp)
  | cons op ops ih =>
    cases i with
    | zero =>
      simp [runTrace, stepOp_fst, Nat.mod_eq_of_lt hp]
    | succ i =>
      have hm : 0 < u32Mod := by decide
      have h2 : ((p.id + 1) % u32Mod) < u32Mod := Nat.mod_lt _ hm
      have hi2 : i < ops.length := Nat.lt_of_succ_lt_succ hi
      have hl2 : i < (runTrace ops (stepOp op p).2).1.length := by
        rw [runTrace_length]; exact hi2
      have hrec := ih (stepOp op p).2 i hi2 (by rw [stepOp_snd]; exact h2) hl2
      have hstep : (runTrace (op :: ops) p).1.get ⟨i + 1, hl⟩ =
          (runTrace ops (stepOp op p).2).1.get ⟨i, hl2⟩ := by
        simp [runTrace]
      rw [hstep, hrec, stepOp_snd]
      have harith : ((p.id + 1) % u32Mod + i) % u32Mod =
          (p.id + (i + 1)) % u32Mod := by
        rw [Nat.mod_add_mod]
        congr 1
        omega
      simp [harith]

theorem mkOut_num (op : IdOp) (n : Nat) : outNum (mkOut op n) = n := by
  cases op <;> rfl

theorem mkOut_inj_num (a b : IdOp) (m n : Nat)
    (h : mkOut a m = mkOut b n) : m = n := by
  cases a <;> cases b <;> simp [mkOut] at h <;> exact h

/-- Modelled from the spec: the canonical Cancellation Notification of the
model module, "a canonical payload (request identifier + optional
human-readable reason)". -/
structure CancelledNotification where
  request_id : RequestId
  reason : Option String
deriving DecidableEq, Repr

/-- Modelled from the spec: a role's concrete notification vocabulary,
as constrained by the ServiceRole bounds on Not and PeerNot. The concrete
types live in the model module outside these sources; the spec requires a
vocabulary in which cancellation notifications are one kind among others.
`other` carries the remaining, role-specific notification kinds. -/
inductive RoleNotification (α : Type) where
  | cancelled (c : CancelledNotification)
  | other (payload : α)
deriving DecidableEq

/-- The infallible conversion from the canonical Cancellation
Notification required by the From bound on Not/PeerNot. -/
def RoleNotification.fromCancelled (c : CancelledNotification) :
    RoleNotification α :=
  .cancelled c

/-- The fallible conversion to the canonical Cancellation Notification
required by the TryInto bound on Not/PeerNot; its error type is the
notification type itself, carrying the input back. -/
def RoleNotification.tryIntoCancelled :
    RoleNotification α → Except (RoleNotification α) CancelledNotification
  | .cancelled c => .ok c
  | .other a => .error (.other a)

/-- Whether a notification is the cancellation kind. -/
def RoleNotification.isCancellation : RoleNotification α → Bool
  | .cancelled _ => true
  | .other _ => false

/-- The ServiceRole contract: six payload shapes, the IS_CLIENT constant,
and two info shapes, together with the cancellation conversions the
bounds on Not and PeerNot demand. -/
structure ServiceRole where
  Req : Type
  Resp : Type
  Not : Type
  notTryInto : Not → Except Not CancelledNotification
  notFromCancelled : CancelledNotification → Not
  PeerReq : Type
  PeerResp : Type
  PeerNot : Type
  peerNotTryInto : PeerNot → Except PeerNot CancelledNotification
  peerNotFromCancelled : CancelledNotification → PeerNot
  IS_CLIENT : Bool
  Info : Type
  PeerInfo : Type

/-- RequestContext: the per-invocation context passed to request
handling, carrying the request identifier being served. -/
structure RequestContext (R : ServiceRole) where
  request_id : RequestId

/-- Modelled from the spec: the error type of the crate's error module
(outside these sources); all that matters here is that it is a value
propagated unchanged. -/
structure McpError where
  message : String
deriving DecidableEq, Repr

/-- The Service trait bound to role R. The shared reference receiver
(the Rust method receiver) is embedded as a read-only state value of
type σ fed to each operation; the signatures offer no channel by which
an operation could replace that state. Futures are embedded by their
eventual outcome. -/
structure Service (R : ServiceRole) (σ : Type) where
  handle_request : σ → R.PeerReq → RequestContext R → Except McpError R.Resp
  handle_notification : σ → R.PeerNot → Except McpError Unit
  get_info : σ → R.Info

/-- The DynService trait: the same three operations with the handling
operations returning a boxed (type-erased) asynchronous outcome. -/
structure DynService (R : ServiceRole) (σ : Type) where
  handle_request : σ → R.PeerReq → RequestContext R → Except McpError R.Resp
  handle_notification : σ → R.PeerNot → Except McpError Unit
  get_info : σ → R.Info

/-- Box::pin of a future: heap-allocates and pins the computation
without altering its eventual outcome. -/
def boxPin (x : α) : α := x

/-- The blanket DynService implementation for any Service: each
operation delegates to the wrapped implementation, the handling
operations through Box::pin. -/
def toDynService (s : Service R σ) : DynService R σ where
  handle_request := fun st req ctx => boxPin (s.handle_request st req ctx)
  handle_notification := fun st n => boxPin (s.handle_notification st n)
  get_info := fun st => s.get_info st

/-- A concrete ServiceRole built over the modelled notification
vocabulary, witnessing the cancellation-convertibility bounds. -/
def modelRole (α β : Type) : ServiceRole where
  Req := Unit
  Resp := Unit
  Not := RoleNotification α
  notTryInto := RoleNotification.tryIntoCancelled
  notFromCancelled := RoleNotification.fromCancelled
  PeerReq := Unit
  PeerResp := Unit
  PeerNot := RoleNotification β
  peerNotTryInto := RoleNotification.tryIntoCancelled
  peerNotFromCancelled := RoleNotification.fromCancelled
  IS_CLIENT := true
  Info := Unit
  PeerInfo := Unit

theorem runTrace_getElem (ops : List IdOp) (p : AtomicU32Provider) (i : Nat)
    (hi : i < ops.length) (hp : p.id < u32Mod) :
    (runTrace ops p).1[i]? =
      some (mkOut (ops.get ⟨i, hi⟩) ((p.id + i) % u32Mod)) := by
  have hl : i < (runTrace ops p).1.length := by
    rw [runTrace_length]; exact hi
  rw [List.getElem?_eq_getElem hl]
  congr 1
  have h := runTrace_get ops p i hi hp hl
  rw [← h]
  exact (List.get_eq_getElem _ ⟨i, hl⟩).symm

theorem new_id : AtomicU32Provider.new.id = 0 := rfl

/-- Claim C1, as stated, fails at the wrap boundary: in the sequence of
2^32 + 1 request-id draws on one fresh provider, the draws at positions
0 and 2^32 return equal Request Identifiers (both Number 0) although the
positions are distinct. -/
theorem c1_uniqueness_fails_at_wrap :
    (runTrace (List.replicate (u32Mod + 1) IdOp.req)
        AtomicU32Provider.new).1[0]? =
      some (IdOut.reqId (NumberOrString.number 0)) ∧
    (runTrace (List.replicate (u32Mod + 1) IdOp.req)
        AtomicU32Provider.new).1[u32Mod]? =
      some (IdOut.reqId (NumberOrString.number 0)) ∧
    (0 : Nat) ≠ u32Mod := by
  have hpos : (0 : Nat) < u32Mod := by decide
  have h1 : (0 : Nat) < (List.replicate (u32Mod + 1) IdOp.req).length := by
    rw [List.length_replicate]; omega
  have h2 : u32Mod < (List.replicate (u32Mod + 1) IdOp.req).length := by
    rw [List.length_replicate]; omega
  have e1 := runTrace_getElem (List.replicate (u32Mod + 1) IdOp.req)
    AtomicU32Provider.new 0 h1 hpos
  have e2 := runTrace_getElem (List.replicate (u32Mod + 1) IdOp.req)
    AtomicU32Provider.new u32Mod h2 hpos
  have g1 : (List.replicate (u32Mod + 1) IdOp.req).get ⟨0, h1⟩ = IdOp.req :=
    List.eq_of_mem_replicate (List.get_mem _ _ _)
  have g2 : (List.replicate (u32Mod + 1) IdOp.req).get ⟨u32Mod, h2⟩ =
      IdOp.req :=
    List.eq_of_mem_replicate (List.get_mem _ _ _)
  rw [g1] at e1
  rw [g2] at e2
  simp only [AtomicU32Provider.new, Nat.zero_add, Nat.zero_mod,
    Nat.mod_self, mkOut] at e1 e2
  exact ⟨e1, e2, by omega⟩

/-- Claim C1 amended: as long as the total number of draws on one fresh
provider instance does not exceed 2^32, all returned identifiers are
pairwise distinct — in particular no two Request Identifiers coincide
and no two Progress Tokens coincide, under any interleaving of the two
draw kinds. -/
theorem c1_ids_unique_before_wrap (ops : List IdOp)
    (hlen : ops.length ≤ u32Mod) (i j : Nat)
    (hi : i < (runTrace ops AtomicU32Provider.new).1.length)
    (hj : j < (runTrace ops AtomicU32Provider.new).1.length)
    (hne : i ≠ j) :
    (runTrace ops AtomicU32Provider.new).1.get ⟨i, hi⟩ ≠
      (runTrace ops AtomicU32Provider.new).1.get ⟨j, hj⟩ := by
  have hpos : (0 : Nat) < u32Mod := by decide
  have hi2 : i < ops.length := by rw [← runTrace_length ops AtomicU32Provider.new]; exact hi
  have hj2 : j < ops.length := by rw [← runTrace_length ops AtomicU32Provider.new]; exact hj
  rw [runTrace_get ops AtomicU32Provider.new i hi2 hpos hi,
    runTrace_get ops AtomicU32Provider.new j hj2 hpos hj]
  intro hcontra
  have hv := mkOut_inj_num _ _ _ _ hcontra
  have hiu : i < u32Mod := lt_of_lt_of_le hi2 hlen
  have hju : j < u32Mod := lt_of_lt_of_le hj2 hlen
  rw [new_id, Nat.zero_add, Nat.zero_add, Nat.mod_eq_of_lt hiu,
    Nat.mod_eq_of_lt hju] at hv
  exact hne hv

/-- Witness for the amended C1 at a concrete trace of three draws. -/
theorem c1_ids_unique_before_wrap_witness :
    (runTrace [IdOp.req, IdOp.prog, IdOp.req] AtomicU32Provider.new).1.get
        ⟨0, by decide⟩ ≠
      (runTrace [IdOp.req, IdOp.prog, IdOp.req] AtomicU32Provider.new).1.get
        ⟨2, by decide⟩ :=
  c1_ids_unique_before_wrap [IdOp.req, IdOp.prog, IdOp.req] (by decide)
    0 2 (by decide) (by decide) (by decide)

/-- Claim C2: the blanket DynService implementation is a pure
type-erasure boundary — each of its three operations produces exactly
the outcome of the wrapped Service's corresponding operation, on every
input. -/
theorem c2_dynservice_transparent (R : ServiceRole) (σ : Type)
    (s : Service R σ) (st : σ) (req : R.PeerReq) (ctx : RequestContext R)
    (n : R.PeerNot) :
    (toDynService s).handle_request st req ctx =
        s.handle_request st req ctx ∧
    (toDynService s).handle_notification st n =
        s.handle_notification st n ∧
    (toDynService s).get_info st = s.get_info st :=
  ⟨rfl, rfl, rfl⟩

/-- Claim C3, as stated, fails at the wrap boundary: among 2^32 + 1
request-id draws on one fresh provider, the draw at position 2^32
carries the value 0, which is not strictly greater than the previous
draw's value 2^32 - 1. -/
theorem c3_monotonicity_fails_at_wrap :
    (runTrace (List.replicate (u32Mod + 1) IdOp.req)
        AtomicU32Provider.new).1[u32Mod - 1]? =
      some (IdOut.reqId (NumberOrString.number (u32Mod - 1))) ∧
    (runTrace (List.replicate (u32Mod + 1) IdOp.req)
        AtomicU32Provider.new).1[u32Mod]? =
      some (IdOut.reqId (NumberOrString.number 0)) ∧
    ¬ (u32Mod - 1 : Nat) < 0 := by
  have hpos : (0 : Nat) < u32Mod := by decide
  have h1 : u32Mod - 1 < (List.replicate (u32Mod + 1) IdOp.req).length := by
    rw [List.length_replicate]; omega
  have h2 : u32Mod < (List.replicate (u32Mod + 1) IdOp.req).length := by
    rw [List.length_replicate]; omega
  have e1 := runTrace_getElem (List.replicate (u32Mod + 1) IdOp.req)
    AtomicU32Provider.new (u32Mod - 1) h1 hpos
  have e2 := runTrace_getElem (List.replicate (u32Mod + 1) IdOp.req)
    AtomicU32Provider.new u32Mod h2 hpos
  have g1 : (List.replicate (u32Mod + 1) IdOp.req).get ⟨u32Mod - 1, h1⟩ =
      IdOp.req :=
    List.eq_of_mem_replicate (List.get_mem _ _ _)
  have g2 : (List.replicate (u32Mod + 1) IdOp.req).get ⟨u32Mod, h2⟩ =
      IdOp.req :=
    List.eq_of_mem_replicate (List.get_mem _ _ _)
  rw [g1] at e1
  rw [g2] at e2
  have hmod1 : (AtomicU32Provider.new.id + (u32Mod - 1)) % u32Mod =
      u32Mod - 1 := by
    simp only [AtomicU32Provider.new]
    rw [Nat.zero_add]
    exact Nat.mod_eq_of_lt (by omega)
  have hmod2 : (AtomicU32Provider.new.id + u32Mod) % u32Mod = 0 := by
    simp only [AtomicU32Provider.new]
    rw [Nat.zero_add]
    exact Nat.mod_self u32Mod
  rw [hmod1] at e1
  rw [hmod2] at e2
  exact ⟨e1, e2, by omega⟩

/-- Claim C3 amended: on a fresh provider, the first draw carries the
numeric value zero, and within the first 2^32 draws each subsequent
draw (of either kind) carries a value strictly greater than the
previous one. -/
theorem c3_counter_monotone_before_wrap (ops : List IdOp)
    (hlen : ops.length ≤ u32Mod) (i : Nat)
    (h0 : 0 < (runTrace ops AtomicU32Provider.new).1.length)
    (hi : i < (runTrace ops AtomicU32Provider.new).1.length)
    (hi1 : i + 1 < (runTrace ops AtomicU32Provider.new).1.length) :
    outNum ((runTrace ops AtomicU32Provider.new).1.get ⟨0, h0⟩) = 0 ∧
    outNum ((runTrace ops AtomicU32Provider.new).1.get ⟨i, hi⟩) <
      outNum ((runTrace ops AtomicU32Provider.new).1.get ⟨i + 1, hi1⟩) := by
  have hpos : (0 : Nat) < u32Mod := by decide
  have h02 : 0 < ops.length := by rw [← runTrace_length ops AtomicU32Provider.new]; exact h0
  have hi2 : i < ops.length := by rw [← runTrace_length ops AtomicU32Provider.new]; exact hi
  have hi12 : i + 1 < ops.length := by rw [← runTrace_length ops AtomicU32Provider.new]; exact hi1
  rw [runTrace_get ops AtomicU32Provider.new 0 h02 hpos h0,
    runTrace_get ops AtomicU32Provider.new i hi2 hpos hi,
    runTrace_get ops AtomicU32Provider.new (i + 1) hi12 hpos hi1]
  rw [mkOut_num, mkOut_num, mkOut_num]
  have hiu : i < u32Mod := by omega
  have hi1u : i + 1 < u32Mod := by omega
  rw [new_id, Nat.zero_add, Nat.zero_add, Nat.zero_add, Nat.zero_mod,
    Nat.mod_eq_of_lt hiu, Nat.mod_eq_of_lt hi1u]
  omega

/-- Witness for the amended C3 at a concrete trace of two draws. -/
theorem c3_counter_monotone_witness :
    outNum ((runTrace [IdOp.req, IdOp.prog] AtomicU32Provider.new).1.get
        ⟨0, by decide⟩) = 0 ∧
    outNum ((runTrace [IdOp.req, IdOp.prog] AtomicU32Provider.new).1.get
        ⟨0, by decide⟩) <
      outNum ((runTrace [IdOp.req, IdOp.prog] AtomicU32Provider.new).1.get
        ⟨1, by decide⟩) :=
  c3_counter_monotone_before_wrap [IdOp.req, IdOp.prog] (by decide) 0
    (by decide) (by decide) (by decide)

/-- Claim C4, as stated, fails at the wrap boundary: in a trace of
2^32 + 1 progress-token draws on one fresh provider, the draw at call
position 2^32 carries the value 0, not the value 2^32 the consecutive
sequence 0, 1, 2, ... would demand. -/
theorem c4_consecutive_fails_at_wrap :
    (runTrace (List.replicate (u32Mod + 1) IdOp.prog)
        AtomicU32Provider.new).1[u32Mod]? =
      some (IdOut.progTok ⟨NumberOrString.number 0⟩) ∧
    (0 : Nat) ≠ u32Mod := by
  have hpos : (0 : Nat) < u32Mod := by decide
  have h2 : u32Mod < (List.replicate (u32Mod + 1) IdOp.prog).length := by
    rw [List.length_replicate]; omega
  have e2 := runTrace_getElem (List.replicate (u32Mod + 1) IdOp.prog)
    AtomicU32Provider.new u32Mod h2 hpos
  have g2 : (List.replicate (u32Mod + 1) IdOp.prog).get ⟨u32Mod, h2⟩ =
      IdOp.prog :=
    List.eq_of_mem_replicate (List.get_mem _ _ _)
  rw [g2] at e2
  simp only [AtomicU32Provider.new, Nat.zero_add, Nat.mod_self, mkOut] at e2
  exact ⟨e2, by omega⟩

/-- Claim C4 amended: both draw kinds advance one shared counter, each
call moving it from v to (v + 1) mod 2^32; on a fresh provider the i-th
draw (in call order, counting both kinds) carries the numeric value
i mod 2^32, tagged by the kind of that call — so within the first 2^32
calls the values are exactly the consecutive sequence 0, 1, 2, ... . -/
theorem c4_shared_counter_consecutive (ops : List IdOp) (i : Nat)
    (hi : i < (runTrace ops AtomicU32Provider.new).1.length)
    (hiops : i < ops.length) :
    (runTrace ops AtomicU32Provider.new).1.get ⟨i, hi⟩ =
        mkOut (ops.get ⟨i, hiops⟩) (i % u32Mod) ∧
    outNum ((runTrace ops AtomicU32Provider.new).1.get ⟨i, hi⟩) =
        i % u32Mod ∧
    (∀ op p, (stepOp op p).2.id = (p.id + 1) % u32Mod) := by
  have hpos : (0 : Nat) < u32Mod := by decide
  have h := runTrace_get ops AtomicU32Provider.new i hiops hpos hi
  rw [new_id, Nat.zero_add] at h
  exact ⟨h, by rw [h, mkOut_num], fun op p => by rw [stepOp_snd]⟩

/-- Witness for the amended C4 at a concrete trace of two draws. -/
theorem c4_shared_counter_consecutive_witness :
    (runTrace [IdOp.prog, IdOp.req] AtomicU32Provider.new).1.get
        ⟨1, by decide⟩ =
      mkOut ([IdOp.prog, IdOp.req].get ⟨1, by decide⟩) (1 % u32Mod) :=
  (c4_shared_counter_consecutive [IdOp.prog, IdOp.req] 1
    (by decide) (by decide)).1

/-- Claim C5: for both notification positions of a role (Not and
PeerNot), converting a value built by the infallible from-canonical
conversion back to canonical form succeeds and reproduces the original
request identifier and reason. -/
theorem c5_cancellation_roundtrip (α β : Type) (c : CancelledNotification) :
    (modelRole α β).notTryInto ((modelRole α β).notFromCancelled c) =
        Except.ok ⟨c.request_id, c.reason⟩ ∧
    (modelRole α β).peerNotTryInto ((modelRole α β).peerNotFromCancelled c) =
        Except.ok ⟨c.request_id, c.reason⟩ := by
  cases c
  exact ⟨rfl, rfl⟩

/-- Claim C6: for both notification positions of a role, the fallible
conversion of a non-cancellation value to canonical form fails, and the
error carries the original notification value back unchanged. -/
theorem c6_non_cancellation_unchanged (α β : Type)
    (n : RoleNotification α) (m : RoleNotification β)
    (hn : n.isCancellation = false) (hm : m.isCancellation = false) :
    (modelRole α β).notTryInto n = Except.error n ∧
    (modelRole α β).peerNotTryInto m = Except.error m := by
  constructor
  · cases n with
    | cancelled c => exact absurd hn (by simp [RoleNotification.isCancellation])
    | other a => rfl
  · cases m with
    | cancelled c => exact absurd hm (by simp [RoleNotification.isCancellation])
    | other a => rfl

/-- Witness for C6 at concrete non-cancellation notifications. -/
theorem c6_non_cancellation_unchanged_witness :
    (modelRole Nat Nat).notTryInto (RoleNotification.other 0) =
        Except.error (RoleNotification.other 0) ∧
    (modelRole Nat Nat).peerNotTryInto (RoleNotification.other 1) =
        Except.error (RoleNotification.other 1) :=
  c6_non_cancellation_unchanged Nat Nat (RoleNotification.other 0)
    (RoleNotification.other 1) rfl rfl

/-- Claim C7: identifier provisioning is infallible — on every provider
state, each of the two draw operations returns an identifier together
with a well-formed successor state; there is no error outcome. -/
theorem c7_provisioning_infallible (p : AtomicU32Provider) :
    (∃ r q, next_request_id p = (r, q) ∧ q.id < u32Mod) ∧
    (∃ t q, next_progress_token p = (t, q) ∧ q.id < u32Mod) :=
  ⟨⟨_, _, rfl, Nat.mod_lt _ (by decide)⟩,
   ⟨_, _, rfl, Nat.mod_lt _ (by decide)⟩⟩

/-- Claim C9: after exactly 2^32 total draws (of any interleaving of the
two kinds) on a fresh provider, the counter has wrapped to 0, and the
next draw of either kind returns the numeric value 0 again. -/
theorem c9_counter_wraps (ops : List IdOp) (hlen : ops.length = u32Mod) :
    (runTrace ops AtomicU32Provider.new).2.id = 0 ∧
    (next_request_id (runTrace ops AtomicU32Provider.new).2).1 =
        NumberOrString.number 0 ∧
    (next_progress_token (runTrace ops AtomicU32Provider.new).2).1 =
        ⟨NumberOrString.number 0⟩ := by
  have hpos : (0 : Nat) < u32Mod := by decide
  have hid : (runTrace ops AtomicU32Provider.new).2.id = 0 := by
    rw [runTrace_final_id ops AtomicU32Provider.new hpos, hlen]
    simp [AtomicU32Provider.new]
  refine ⟨hid, ?_, ?_⟩
  · simp [next_request_id, AtomicU32Provider.fetch_add_one, hid]
  · simp [next_progress_token, AtomicU32Provider.fetch_add_one, hid]

/-- Witness for C9 at the concrete trace of 2^32 request-id draws. -/
theorem c9_counter_wraps_witness :
    (next_request_id
        (runTrace (List.replicate u32Mod IdOp.req)
          AtomicU32Provider.new).2).1 = NumberOrString.number 0 :=
  (c9_counter_wraps (List.replicate u32Mod IdOp.req)
    (List.length_replicate u32Mod IdOp.req)).2.1

/-- Claim C10: every identifier the provider mints is numeric —
next_request_id returns the Number variant of the integer-or-string
shape, and next_progress_token returns a ProgressToken wrapping the
Number variant, on every provider state. -/
theorem c10_minted_ids_numeric (p : AtomicU32Provider) :
    (next_request_id p).1.isNumber = true ∧
    ((next_progress_token p).1).tok.isNumber = true ∧
    (next_request_id p).1 = NumberOrString.number (p.id % u32Mod) ∧
    (next_progress_token p).1 = ⟨NumberOrString.number (p.id % u32Mod)⟩ :=
  ⟨rfl, rfl, rfl, rfl⟩

end Rmcp
